import Mathlib

/-
Verification of the bounded-buffer producer/consumer coordinator
(`ProdConsPQueue`, src/index.ts) against its natural-language specification.

The TypeScript class is shallowly embedded: every private field of the class
becomes a field of `PCQ.PCState`, and every method becomes a Lean function on
that state.  Asynchronous suspension points are modeled by an explicit
operation alphabet `PCQ.Op` together with `PCQ.applyOp`/`PCQ.runOps`: a run of
the event loop is a list of atomic operations, where each operation is the
maximal synchronous code segment the JavaScript engine executes without
interleaving (promise resolutions only schedule microtasks, so resolving a
waiter inside a loop has no synchronous effect on the state).  The step
alphabet over-approximates admission timing (a `produce` step stands for the
resumed continuation after `hasFreeSlot()` resolved), so every real run of the
program is represented by some operation list.
-/

namespace PCQ

/-- An item held in the staging buffer.  JavaScript `undefined` is modeled as
`none`; any other produced value is `some v`, with payloads drawn from `Nat`
(the class treats items opaquely except for the `data !== undefined` test in
`scheduleConsumption`). -/
abbrev Item := Option Nat

/-- The three event names of the class
(`free-slot-amount-change`, `blocked-state-change`, `destroy`). -/
inductive EvtName where
  | freeSlotAmountChange
  | blockedStateChange
  | destroyEvent
deriving DecidableEq

/-- An emitted event together with its payload: the capacity signal carries the
current free-slot count (an integer, since `Math.max(0, ...)` operates on
JavaScript numbers), the blocked signal carries a boolean, and the terminal
`destroy` event carries a self-reference (no data, so it is payload-free
here). -/
inductive Event where
  | freeSlotAmountChange (amount : Int)
  | blockedStateChange (blocked : Bool)
  | destroyEvent
deriving DecidableEq

/-- The event name an event is emitted under. -/
def eventName : Event → EvtName
  | .freeSlotAmountChange _ => .freeSlotAmountChange
  | .blockedStateChange _ => .blockedStateChange
  | .destroyEvent => .destroyEvent

/-- The mutable state of one `ProdConsPQueue` instance: one field per private
field of the class.  `hasConsumeFn` models `consumeFn !== null`; producer
waiters and event waiters are identified by caller-chosen `Nat` tokens held in
FIFO order; `listeners` is the listener registry as (event name, listener id)
pairs; `queuePaused` is the paused flag of the underlying p-queue. -/
structure PCState where
  buffer : List Item
  slotAmount : Nat
  concurrency : Nat
  runningJobs : Nat
  consuming : Bool
  hasConsumeFn : Bool
  destroyed : Bool
  waitingForSlot : List Nat
  previousBlocked : Bool
  eventWaiters : List (EvtName × Nat)
  listeners : List (EvtName × Nat)
  queuePaused : Bool
deriving DecidableEq

/-- The state built by the constructor for given options
(`slotAmount`, `concurrency`). -/
def initState (slotAmount concurrency : Nat) : PCState :=
  { buffer := []
    slotAmount := slotAmount
    concurrency := concurrency
    runningJobs := 0
    consuming := false
    hasConsumeFn := false
    destroyed := false
    waitingForSlot := []
    previousBlocked := false
    eventWaiters := []
    listeners := []
    queuePaused := false }

/-- The intermediate `const usedSlots = this.runningJobs + this.buffer.length`
of `getFreeSlotAmount`. -/
def usedSlots (s : PCState) : Nat :=
  s.runningJobs + s.buffer.length

/-- Method `getFreeSlotAmount()`: `Math.max(0, this.slotAmount - usedSlots)`. -/
def getFreeSlotAmount (s : PCState) : Int :=
  max 0 ((s.slotAmount : Int) - (usedSlots s : Int))

/-- Method `isBlocked()`:
`(this.runningJobs + this.buffer.length) >= this.slotAmount`. -/
def isBlocked (s : PCState) : Bool :=
  decide (s.runningJobs + s.buffer.length ≥ s.slotAmount)

/-- Method `notifyStateChange()`: returns early when destroyed; otherwise emits the
capacity signal unconditionally and the blocked signal only when the blocked
boolean changed, caching the newly emitted value in `previousBlocked`.  The
returned list holds the events passed to `emit`, in emission order. -/
def notifyStateChange (s : PCState) : PCState × List Event :=
  if s.destroyed then (s, [])
  else
    let currentFreeSlots := getFreeSlotAmount s
    let currentBlocked := isBlocked s
    if currentBlocked != s.previousBlocked then
      ({ s with previousBlocked := currentBlocked },
        [Event.freeSlotAmountChange currentFreeSlots,
         Event.blockedStateChange currentBlocked])
    else (s, [Event.freeSlotAmountChange currentFreeSlots])

/-- The `while (this.waitingForSlot.length > 0 && !this.isBlocked())` loop of
`checkWaitingProducers`, recursing on the waiter queue.  `waiter.resolve()`
only schedules a microtask, so the counters read by `isBlocked` cannot change
during the synchronous loop; the loop state `s` is therefore constant.
Returns (waiters resolved in order, waiters left queued). -/
def checkWaitingProducersLoop (s : PCState) : List Nat → List Nat × List Nat
  | [] => ([], [])
  | w :: ws =>
    if isBlocked s then ([], w :: ws)
    else
      let r := checkWaitingProducersLoop s ws
      (w :: r.1, r.2)

/-- Method `checkWaitingProducers()`: drains the FIFO waiter queue while not blocked,
resolving each removed waiter.  Returns the new state and the list of waiters
woken, in wake order. -/
def checkWaitingProducers (s : PCState) : PCState × List Nat :=
  let r := checkWaitingProducersLoop s s.waitingForSlot
  ({ s with waitingForSlot := r.2 }, r.1)

/-- The listener broadcast of `emit(event, value)`: nothing when destroyed,
otherwise every listener registered under the event's name (it then also runs
`notifyEventWaiters`).  Returns the listener ids the value is delivered to. -/
def emitDeliveries (s : PCState) (e : Event) : List Nat :=
  if s.destroyed then []
  else (s.listeners.filter (fun p => decide (p.1 = eventName e))).map (fun p => p.2)

/-- Result of a scheduling pass: the state after the pass, the events emitted,
the payloads handed to `consumerTask` invocations (in launch order: one
`queue.add` per element, and p-queue starts same-priority tasks in insertion
order), and how many `undefined` items were removed without being launched. -/
structure SchedOut where
  state : PCState
  events : List Event
  launched : List Nat
  discarded : Nat
deriving DecidableEq

/-- The `while (this.buffer.length > 0 && this.runningJobs < this.queue.concurrency)`
loop of `scheduleConsumption`, recursing on the buffer.  Each iteration shifts
the buffer head; an `undefined` head is dropped silently (the
`data !== undefined` guard skips the whole launch body), a defined head
increments `runningJobs`, runs `notifyStateChange`, and adds the invocation to
the p-queue.  The state's `buffer` field always equals the remaining list
argument. -/
def scheduleLoop (s : PCState) : List Item → SchedOut
  | [] => { state := { s with buffer := [] }, events := [], launched := [], discarded := 0 }
  | d :: rest =>
    if s.runningJobs < s.concurrency then
      match d with
      | none =>
        let r := scheduleLoop s rest
        { r with discarded := r.discarded + 1 }
      | some v =>
        let s1 : PCState := { s with buffer := rest, runningJobs := s.runningJobs + 1 }
        let n := notifyStateChange s1
        let r := scheduleLoop n.1 rest
        { state := r.state, events := n.2 ++ r.events, launched := v :: r.launched,
          discarded := r.discarded }
    else { state := { s with buffer := d :: rest }, events := [], launched := [], discarded := 0 }

/-- Method `scheduleConsumption()`: returns immediately unless consuming with a
registered consumer function on a non-destroyed instance; otherwise runs the
scheduling loop. -/
def scheduleConsumption (s : PCState) : SchedOut :=
  if !s.consuming || s.destroyed || !s.hasConsumeFn then
    { state := s, events := [], launched := [], discarded := 0 }
  else scheduleLoop s s.buffer

/-- Uniform result of one public operation: the state it leaves behind, the
events it emits, the consumer launches and silent discards of its scheduling
passes, the producer waiters it wakes, whether it threw the destroyed-state
error (`threw`, the only error that can escape to the caller), whether a
consumer failure was written to the logging side-channel (`console.error`),
the items it appended to the buffer, and how many invocations it settled. -/
structure OpOut where
  state : PCState
  events : List Event
  launched : List Nat
  discarded : Nat
  woken : List Nat
  threw : Bool
  errLogged : Bool
  producedDelta : List Item
  settledDelta : Nat
deriving DecidableEq

/-- An operation result that only carries a state change. -/
def noOut (s : PCState) : OpOut :=
  { state := s, events := [], launched := [], discarded := 0, woken := [],
    threw := false, errLogged := false, producedDelta := [], settledDelta := 0 }

/-- Method `produce(fn)` (the resumed continuation once `hasFreeSlot()` has resolved
and `fn` has produced `item`): throws when destroyed, otherwise pushes the item
onto the buffer tail, runs `notifyStateChange`, and runs `scheduleConsumption`. -/
def produce (s : PCState) (item : Item) : OpOut :=
  if s.destroyed then { noOut s with threw := true }
  else
    let s1 : PCState := { s with buffer := s.buffer ++ [item] }
    let n := notifyStateChange s1
    let r := scheduleConsumption n.1
    { state := r.state, events := n.2 ++ r.events, launched := r.launched,
      discarded := r.discarded, woken := [], threw := false, errLogged := false,
      producedDelta := [item], settledDelta := 0 }

/-- Method `consume(fn)`: throws when destroyed, otherwise registers the consumer
function, sets `consuming`, and runs a scheduling pass. -/
def consume (s : PCState) : OpOut :=
  if s.destroyed then { noOut s with threw := true }
  else
    let r := scheduleConsumption { s with consuming := true, hasConsumeFn := true }
    { noOut r.state with events := r.events, launched := r.launched, discarded := r.discarded }

/-- Settlement of one in-flight consumer invocation: the `try`/`catch`/`finally`
body of the task added in `scheduleConsumption`.  A failure of `consumerTask`
is caught and written to `console.error` (`errLogged`); the `finally` block
then decrements `runningJobs`, runs `checkWaitingProducers`, and runs
`notifyStateChange`.  The `setImmediate(() => this.scheduleConsumption())` it
schedules is the separate `Op.rescheduleOp` step.  The operation is only
enabled while an invocation is in flight (`runningJobs > 0`); otherwise it is
a no-op marker. -/
def settleInvocation (s : PCState) (failed : Bool) : OpOut :=
  if s.runningJobs = 0 then noOut s
  else
    let s1 : PCState := { s with runningJobs := s.runningJobs - 1 }
    let c := checkWaitingProducers s1
    let n := notifyStateChange c.1
    { noOut n.1 with events := n.2, woken := c.2, errLogged := failed, settledDelta := 1 }

/-- Method `hasFreeSlot()` for the caller identified by `id`: throws when destroyed,
resolves immediately when not blocked, otherwise appends the caller to the
FIFO waiter queue. -/
def hasFreeSlot (s : PCState) (id : Nat) : OpOut :=
  if s.destroyed then { noOut s with threw := true }
  else if !(isBlocked s) then noOut s
  else noOut { s with waitingForSlot := s.waitingForSlot ++ [id] }

/-- Method `waitForEvent(eventName, condition?)` for the caller identified by `id`:
throws when destroyed, otherwise registers a one-shot event waiter.  (The
optional predicate is omitted: no claim verified here depends on
predicate-based resolution, and `destroy()` resolves waiters unconditionally.) -/
def waitForEvent (s : PCState) (name : EvtName) (id : Nat) : OpOut :=
  if s.destroyed then { noOut s with threw := true }
  else noOut { s with eventWaiters := s.eventWaiters ++ [(name, id)] }

/-- Method `pause()`: clears `consuming` and pauses the p-queue.  The method performs
no destroyed-state check. -/
def pause (s : PCState) : PCState :=
  { s with consuming := false, queuePaused := true }

/-- Method `start()`: sets `consuming`, starts the p-queue, and runs a scheduling
pass.  The method performs no destroyed-state check (the pass's own guard
keeps a destroyed instance from scheduling). -/
def start (s : PCState) : OpOut :=
  let r := scheduleConsumption { s with consuming := true, queuePaused := false }
  { noOut r.state with events := r.events, launched := r.launched, discarded := r.discarded }

/-- Method `clear()`: empties the buffer, resolves every waiting producer
unconditionally, clears the p-queue's pending entries (its running tasks are
unaffected), and runs `notifyStateChange`.  The method performs no
destroyed-state check. -/
def clear (s : PCState) : OpOut :=
  let woken := s.waitingForSlot
  let s1 : PCState := { s with buffer := [], waitingForSlot := [] }
  let n := notifyStateChange s1
  { noOut n.1 with events := n.2, woken := woken }

/-- Method `setSlotAmount(n)`: stores the new capacity, runs `notifyStateChange`, and
runs `checkWaitingProducers`.  The method performs no destroyed-state check. -/
def setSlotAmount (s : PCState) (n : Nat) : OpOut :=
  let s1 : PCState := { s with slotAmount := n }
  let m := notifyStateChange s1
  let c := checkWaitingProducers m.1
  { noOut c.1 with events := m.2, woken := c.2 }

/-- Result of `destroy()`: the final state, the producer waiters resolved, the
event waiters resolved (each with the `null` sentinel payload), and the
listener ids the terminal `destroy` event is delivered to. -/
structure DestroyOut where
  state : PCState
  slotWaitersWoken : List Nat
  eventWaitersResolved : List (EvtName × Nat)
  destroyDeliveredTo : List Nat
deriving DecidableEq

/-- Method `destroy()`: idempotent; on the first call it sets `destroyed`, stops
consuming, drops the consumer function, resolves all producer waiters, resolves
all event waiters with `null` and clears them, pauses and clears the p-queue,
calls `emit('destroy', this)`, and clears the listener registry.  The external
p-queue's `pause()` and `clear()` are synchronous (they set the paused flag and
drop pending queue entries) and do not wait for running tasks, so the two
`await`s resolve on the next microtask without any settlement in between. -/
def destroy (s : PCState) : DestroyOut :=
  if s.destroyed then
    { state := s, slotWaitersWoken := [], eventWaitersResolved := [],
      destroyDeliveredTo := [] }
  else
    let s1 : PCState := { s with destroyed := true, consuming := false, hasConsumeFn := false }
    let woken := s1.waitingForSlot
    let s2 : PCState := { s1 with waitingForSlot := [] }
    let resolved := s2.eventWaiters
    let s3 : PCState := { s2 with eventWaiters := [] }
    let s4 : PCState := { s3 with queuePaused := true }
    let delivered := emitDeliveries s4 Event.destroyEvent
    let s5 : PCState := { s4 with listeners := [] }
    { state := s5, slotWaitersWoken := woken, eventWaitersResolved := resolved,
      destroyDeliveredTo := delivered }

/-- The operation alphabet: one constructor per atomic synchronous segment of
the class's control flow. -/
inductive Op where
  | produceOp (item : Item)
  | consumeOp
  | settleOp (failed : Bool)
  | rescheduleOp
  | setSlotAmountOp (n : Nat)
  | hasFreeSlotOp (id : Nat)
  | waitForEventOp (name : EvtName) (id : Nat)
  | pauseOp
  | startOp
  | clearOp
  | destroyOp
deriving DecidableEq

/-- Apply one operation to a state. -/
def applyOp (s : PCState) : Op → OpOut
  | .produceOp item => produce s item
  | .consumeOp => consume s
  | .settleOp failed => settleInvocation s failed
  | .rescheduleOp =>
    let r := scheduleConsumption s
    { noOut r.state with events := r.events, launched := r.launched, discarded := r.discarded }
  | .setSlotAmountOp n => setSlotAmount s n
  | .hasFreeSlotOp id => hasFreeSlot s id
  | .waitForEventOp name id => waitForEvent s name id
  | .pauseOp => noOut (pause s)
  | .startOp => start s
  | .clearOp => clear s
  | .destroyOp =>
    let d := destroy s
    { noOut d.state with woken := d.slotWaitersWoken }

/-- Accumulated observations of a run. -/
structure RunOut where
  state : PCState
  events : List Event
  launched : List Nat
  producedList : List Item
  settled : Nat
  discarded : Nat
deriving DecidableEq

/-- Run a list of operations from a state, concatenating the observations. -/
def runOps : PCState → List Op → RunOut
  | s, [] =>
    { state := s, events := [], launched := [], producedList := [], settled := 0,
      discarded := 0 }
  | s, op :: ops =>
    let o := applyOp s op
    let r := runOps o.state ops
    { state := r.state, events := o.events ++ r.events,
      launched := o.launched ++ r.launched,
      producedList := o.producedDelta ++ r.producedList,
      settled := o.settledDelta + r.settled,
      discarded := o.discarded + r.discarded }

/-- Number of capacity-signal events in a list. -/
def countFreeSlotEvents : List Event → Nat
  | [] => 0
  | .freeSlotAmountChange _ :: es => countFreeSlotEvents es + 1
  | _ :: es => countFreeSlotEvents es

/-- The payloads of the blocked-signal events in a list, in emission order. -/
def blockedPayloads : List Event → List Bool
  | [] => []
  | .blockedStateChange b :: es => b :: blockedPayloads es
  | _ :: es => blockedPayloads es

/-- A boolean sequence alternates, starting from reference value `b`. -/
def altFrom (b : Bool) : List Bool → Bool
  | [] => true
  | x :: xs => (x != b) && altFrom x xs

/-- The last value of a boolean sequence, or the reference value `b` when the
sequence is empty. -/
def lastFrom (b : Bool) : List Bool → Bool
  | [] => b
  | x :: xs => lastFrom x xs

theorem notify_fst (s : PCState) :
    (notifyStateChange s).1 =
      if s.destroyed then s
      else if isBlocked s != s.previousBlocked then
        { s with previousBlocked := isBlocked s }
      else s := by
  simp only [notifyStateChange]
  split_ifs <;> rfl

theorem notify_snd (s : PCState) :
    (notifyStateChange s).2 =
      if s.destroyed then []
      else if isBlocked s != s.previousBlocked then
        [Event.freeSlotAmountChange (getFreeSlotAmount s),
         Event.blockedStateChange (isBlocked s)]
      else [Event.freeSlotAmountChange (getFreeSlotAmount s)] := by
  simp only [notifyStateChange]
  split_ifs <;> rfl

@[simp] theorem notify_buffer (s : PCState) :
    (notifyStateChange s).1.buffer = s.buffer := by
  rw [notify_fst]; split_ifs <;> rfl

@[simp] theorem notify_runningJobs (s : PCState) :
    (notifyStateChange s).1.runningJobs = s.runningJobs := by
  rw [notify_fst]; split_ifs <;> rfl

@[simp] theorem notify_slotAmount (s : PCState) :
    (notifyStateChange s).1.slotAmount = s.slotAmount := by
  rw [notify_fst]; split_ifs <;> rfl

@[simp] theorem notify_concurrency (s : PCState) :
    (notifyStateChange s).1.concurrency = s.concurrency := by
  rw [notify_fst]; split_ifs <;> rfl

@[simp] theorem notify_consuming (s : PCState) :
    (notifyStateChange s).1.consuming = s.consuming := by
  rw [notify_fst]; split_ifs <;> rfl

@[simp] theorem notify_hasConsumeFn (s : PCState) :
    (notifyStateChange s).1.hasConsumeFn = s.hasConsumeFn := by
  rw [notify_fst]; split_ifs <;> rfl

@[simp] theorem notify_destroyed (s : PCState) :
    (notifyStateChange s).1.destroyed = s.destroyed := by
  rw [notify_fst]; split_ifs <;> rfl

@[simp] theorem notify_waitingForSlot (s : PCState) :
    (notifyStateChange s).1.waitingForSlot = s.waitingForSlot := by
  rw [notify_fst]; split_ifs <;> rfl

@[simp] theorem notify_eventWaiters (s : PCState) :
    (notifyStateChange s).1.eventWaiters = s.eventWaiters := by
  rw [notify_fst]; split_ifs <;> rfl

@[simp] theorem notify_listeners (s : PCState) :
    (notifyStateChange s).1.listeners = s.listeners := by
  rw [notify_fst]; split_ifs <;> rfl

@[simp] theorem notify_queuePaused (s : PCState) :
    (notifyStateChange s).1.queuePaused = s.queuePaused := by
  rw [notify_fst]; split_ifs <;> rfl

theorem checkWaitingProducersLoop_eq (s : PCState) (l : List Nat) :
    checkWaitingProducersLoop s l = if isBlocked s then ([], l) else (l, []) := by
  induction l with
  | nil => simp only [checkWaitingProducersLoop]; split_ifs <;> rfl
  | cons w ws ih =>
    simp only [checkWaitingProducersLoop, ih]
    split_ifs <;> simp

theorem checkWaitingProducers_eq (s : PCState) :
    checkWaitingProducers s =
      (if isBlocked s then s else { s with waitingForSlot := [] },
       if isBlocked s then [] else s.waitingForSlot) := by
  simp only [checkWaitingProducers, checkWaitingProducersLoop_eq]
  split_ifs <;> simp

@[simp] theorem cwp_buffer (s : PCState) :
    (checkWaitingProducers s).1.buffer = s.buffer := rfl

@[simp] theorem cwp_runningJobs (s : PCState) :
    (checkWaitingProducers s).1.runningJobs = s.runningJobs := rfl

@[simp] theorem cwp_slotAmount (s : PCState) :
    (checkWaitingProducers s).1.slotAmount = s.slotAmount := rfl

@[simp] theorem cwp_destroyed (s : PCState) :
    (checkWaitingProducers s).1.destroyed = s.destroyed := rfl

@[simp] theorem cwp_previousBlocked (s : PCState) :
    (checkWaitingProducers s).1.previousBlocked = s.previousBlocked := rfl

theorem isBlocked_congr (s t : PCState) (h1 : t.runningJobs = s.runningJobs)
    (h2 : t.buffer = s.buffer) (h3 : t.slotAmount = s.slotAmount) :
    isBlocked t = isBlocked s := by
  simp [isBlocked, h1, h2, h3]

theorem getFreeSlotAmount_congr (s t : PCState) (h1 : t.runningJobs = s.runningJobs)
    (h2 : t.buffer = s.buffer) (h3 : t.slotAmount = s.slotAmount) :
    getFreeSlotAmount t = getFreeSlotAmount s := by
  simp [getFreeSlotAmount, usedSlots, h1, h2, h3]

theorem scheduleLoop_preserved (buf : List Item) (s : PCState) :
    (scheduleLoop s buf).state.destroyed = s.destroyed ∧
    (scheduleLoop s buf).state.consuming = s.consuming ∧
    (scheduleLoop s buf).state.hasConsumeFn = s.hasConsumeFn ∧
    (scheduleLoop s buf).state.slotAmount = s.slotAmount ∧
    (scheduleLoop s buf).state.concurrency = s.concurrency ∧
    (scheduleLoop s buf).state.waitingForSlot = s.waitingForSlot ∧
    (scheduleLoop s buf).state.eventWaiters = s.eventWaiters ∧
    (scheduleLoop s buf).state.listeners = s.listeners ∧
    (scheduleLoop s buf).state.queuePaused = s.queuePaused := by
  induction buf generalizing s with
  | nil => exact ⟨rfl, rfl, rfl, rfl, rfl, rfl, rfl, rfl, rfl⟩
  | cons d rest ih =>
    simp only [scheduleLoop]
    split_ifs with h
    · cases d with
      | none => simpa using ih s
      | some v =>
        obtain ⟨h1, h2, h3, h4, h5, h6, h7, h8, h9⟩ :=
          ih (notifyStateChange
            { s with buffer := rest, runningJobs := s.runningJobs + 1 }).1
        simp_all
    · exact ⟨rfl, rfl, rfl, rfl, rfl, rfl, rfl, rfl, rfl⟩

theorem scheduleLoop_length (buf : List Item) (s : PCState) :
    (scheduleLoop s buf).state.buffer.length + (scheduleLoop s buf).launched.length
      + (scheduleLoop s buf).discarded = buf.length := by
  induction buf generalizing s with
  | nil => rfl
  | cons d rest ih =>
    simp only [scheduleLoop]
    split_ifs with h
    · cases d with
      | none =>
        have := ih s
        simp only [List.length_cons]
        omega
      | some v =>
        have := ih (notifyStateChange
          { s with buffer := rest, runningJobs := s.runningJobs + 1 }).1
        simp only [List.length_cons, List.length_cons] at this ⊢
        omega
    · simp

theorem scheduleLoop_runningJobs (buf : List Item) (s : PCState) :
    (scheduleLoop s buf).state.runningJobs
      = s.runningJobs + (scheduleLoop s buf).launched.length := by
  induction buf generalizing s with
  | nil => rfl
  | cons d rest ih =>
    simp only [scheduleLoop]
    split_ifs with h
    · cases d with
      | none => simpa using ih s
      | some v =>
        have := ih (notifyStateChange
          { s with buffer := rest, runningJobs := s.runningJobs + 1 }).1
        simp only [notify_runningJobs] at this
        simp only [this, List.length_cons]
        omega
    · simp

theorem scheduleLoop_filterMap (buf : List Item) (s : PCState) :
    (scheduleLoop s buf).launched ++ (scheduleLoop s buf).state.buffer.filterMap id
      = buf.filterMap id := by
  induction buf generalizing s with
  | nil => rfl
  | cons d rest ih =>
    simp only [scheduleLoop]
    split_ifs with h
    · cases d with
      | none => simpa using ih s
      | some v =>
        have := ih (notifyStateChange
          { s with buffer := rest, runningJobs := s.runningJobs + 1 }).1
        simp [this]
    · simp

theorem countFreeSlotEvents_append (l1 l2 : List Event) :
    countFreeSlotEvents (l1 ++ l2) = countFreeSlotEvents l1 + countFreeSlotEvents l2 := by
  induction l1 with
  | nil => simp [countFreeSlotEvents]
  | cons e es ih =>
    cases e <;> simp [countFreeSlotEvents, ih, Nat.add_comm, Nat.add_assoc, Nat.add_left_comm]

theorem blockedPayloads_append (l1 l2 : List Event) :
    blockedPayloads (l1 ++ l2) = blockedPayloads l1 ++ blockedPayloads l2 := by
  induction l1 with
  | nil => rfl
  | cons e es ih => cases e <;> simp [blockedPayloads, ih]

theorem lastFrom_append (b : Bool) (xs ys : List Bool) :
    lastFrom b (xs ++ ys) = lastFrom (lastFrom b xs) ys := by
  induction xs generalizing b with
  | nil => rfl
  | cons x xs ih => simp [lastFrom, ih]

theorem altFrom_append (b : Bool) (xs ys : List Bool) :
    altFrom b (xs ++ ys) = (altFrom b xs && altFrom (lastFrom b xs) ys) := by
  induction xs generalizing b with
  | nil => rfl
  | cons x xs ih => simp [altFrom, lastFrom, ih, Bool.and_assoc]

theorem notify_countFreeSlot (s : PCState) (h : s.destroyed = false) :
    countFreeSlotEvents (notifyStateChange s).2 = 1 := by
  rw [notify_snd]
  simp only [h, if_false, Bool.false_eq_true]
  split_ifs <;> rfl

theorem notify_alternation (s : PCState) :
    altFrom s.previousBlocked (blockedPayloads (notifyStateChange s).2) = true ∧
    lastFrom s.previousBlocked (blockedPayloads (notifyStateChange s).2)
      = (notifyStateChange s).1.previousBlocked := by
  rw [notify_snd, notify_fst]
  split_ifs with h1 h2
  · exact ⟨rfl, rfl⟩
  · constructor
    · simp [blockedPayloads, altFrom, h2]
    · simp [blockedPayloads, lastFrom]
  · exact ⟨rfl, rfl⟩

theorem scheduleLoop_countFreeSlot (buf : List Item) (s : PCState)
    (h : s.destroyed = false) :
    countFreeSlotEvents (scheduleLoop s buf).events
      = (scheduleLoop s buf).launched.length := by
  induction buf generalizing s with
  | nil => rfl
  | cons d rest ih =>
    simp only [scheduleLoop]
    split_ifs with hc
    · cases d with
      | none => simpa using ih s h
      | some v =>
        have hi := ih (notifyStateChange
          { s with buffer := rest, runningJobs := s.runningJobs + 1 }).1 (by simpa using h)
        simp only [h] at hi
        simp [countFreeSlotEvents_append, hi, notify_countFreeSlot, h, Nat.add_comm]
    · rfl

theorem scheduleConsumption_length (s : PCState) :
    (scheduleConsumption s).state.buffer.length + (scheduleConsumption s).launched.length
      + (scheduleConsumption s).discarded = s.buffer.length := by
  unfold scheduleConsumption
  split_ifs with h
  · rfl
  · exact scheduleLoop_length s.buffer s

theorem scheduleConsumption_runningJobs (s : PCState) :
    (scheduleConsumption s).state.runningJobs
      = s.runningJobs + (scheduleConsumption s).launched.length := by
  unfold scheduleConsumption
  split_ifs with h
  · rfl
  · exact scheduleLoop_runningJobs s.buffer s

theorem scheduleConsumption_filterMap (s : PCState) :
    (scheduleConsumption s).launched ++ (scheduleConsumption s).state.buffer.filterMap id
      = s.buffer.filterMap id := by
  unfold scheduleConsumption
  split_ifs with h
  · rfl
  · exact scheduleLoop_filterMap s.buffer s

theorem scheduleConsumption_countFreeSlot (s : PCState) (h : s.destroyed = false) :
    countFreeSlotEvents (scheduleConsumption s).events
      = (scheduleConsumption s).launched.length := by
  unfold scheduleConsumption
  split_ifs with hg
  · rfl
  · exact scheduleLoop_countFreeSlot s.buffer s h

theorem scheduleLoop_alternation (buf : List Item) (s : PCState) :
    altFrom s.previousBlocked (blockedPayloads (scheduleLoop s buf).events) = true ∧
    lastFrom s.previousBlocked (blockedPayloads (scheduleLoop s buf).events)
      = (scheduleLoop s buf).state.previousBlocked := by
  induction buf generalizing s with
  | nil => exact ⟨rfl, rfl⟩
  | cons d rest ih =>
    simp only [scheduleLoop]
    split_ifs with hc
    · cases d with
      | none => simpa using ih s
      | some v =>
        have hn := notify_alternation
          { s with buffer := rest, runningJobs := s.runningJobs + 1 }
        have hi := ih (notifyStateChange
          { s with buffer := rest, runningJobs := s.runningJobs + 1 }).1
        simp only [blockedPayloads_append, altFrom_append, lastFrom_append]
        simp only at hn
        constructor
        · rw [hn.1, hn.2, Bool.true_and]
          exact hi.1
        · rw [hn.2]
          exact hi.2
    · exact ⟨rfl, rfl⟩

theorem scheduleConsumption_alternation (s : PCState) :
    altFrom s.previousBlocked (blockedPayloads (scheduleConsumption s).events) = true ∧
    lastFrom s.previousBlocked (blockedPayloads (scheduleConsumption s).events)
      = (scheduleConsumption s).state.previousBlocked := by
  unfold scheduleConsumption
  split_ifs with h
  · exact ⟨rfl, rfl⟩
  · exact scheduleLoop_alternation s.buffer s

theorem scheduleConsumption_destroyed (s : PCState) :
    (scheduleConsumption s).state.destroyed = s.destroyed := by
  unfold scheduleConsumption
  split_ifs with h
  · rfl
  · exact (scheduleLoop_preserved s.buffer s).1

theorem destroy_runningJobs (s : PCState) :
    (destroy s).state.runningJobs = s.runningJobs := by
  unfold destroy
  split_ifs <;> rfl

theorem destroy_previousBlocked (s : PCState) :
    (destroy s).state.previousBlocked = s.previousBlocked := by
  unfold destroy
  split_ifs <;> rfl

theorem destroy_buffer (s : PCState) :
    (destroy s).state.buffer = s.buffer := by
  unfold destroy
  split_ifs <;> rfl

theorem destroy_state_eq (s : PCState) (h : s.destroyed = false) :
    (destroy s).state =
      { s with
        destroyed := true, consuming := false, hasConsumeFn := false,
        waitingForSlot := [], eventWaiters := [], queuePaused := true,
        listeners := [] } := by
  simp [destroy, h]

theorem destroy_deliveries (s : PCState) :
    (destroy s).destroyDeliveredTo = [] := by
  unfold destroy
  split_ifs with h
  · rfl
  · simp [emitDeliveries]

theorem applyOp_count (s : PCState) (op : Op) (hop : op ≠ Op.clearOp) :
    (applyOp s op).state.buffer.length + (applyOp s op).state.runningJobs
      + (applyOp s op).settledDelta + (applyOp s op).discarded
      = s.buffer.length + s.runningJobs + (applyOp s op).producedDelta.length := by
  cases op with
  | produceOp item =>
    simp only [applyOp, produce]
    split_ifs with h
    · rfl
    · have h1 := scheduleConsumption_length
        (notifyStateChange { s with buffer := s.buffer ++ [item] }).1
      have h2 := scheduleConsumption_runningJobs
        (notifyStateChange { s with buffer := s.buffer ++ [item] }).1
      simp only [notify_buffer, notify_runningJobs, List.length_append,
        List.length_singleton] at h1 h2
      simp only [noOut, List.length_singleton, List.length_nil]
      omega
  | consumeOp =>
    simp only [applyOp, consume]
    split_ifs with h
    · rfl
    · have h1 := scheduleConsumption_length
        { s with consuming := true, hasConsumeFn := true }
      have h2 := scheduleConsumption_runningJobs
        { s with consuming := true, hasConsumeFn := true }
      simp only at h1 h2
      simp only [noOut, List.length_nil]
      omega
  | settleOp failed =>
    simp only [applyOp, settleInvocation]
    split_ifs with h
    · rfl
    · simp only [noOut, notify_buffer, notify_runningJobs, cwp_buffer, cwp_runningJobs,
        List.length_nil]
      omega
  | rescheduleOp =>
    have h1 := scheduleConsumption_length s
    have h2 := scheduleConsumption_runningJobs s
    simp only [applyOp, noOut, List.length_nil]
    omega
  | setSlotAmountOp n =>
    simp only [applyOp, setSlotAmount, noOut, notify_buffer, notify_runningJobs,
      cwp_buffer, cwp_runningJobs]
    simp
  | hasFreeSlotOp id =>
    simp only [applyOp, hasFreeSlot]
    split_ifs <;> rfl
  | waitForEventOp name id =>
    simp only [applyOp, waitForEvent]
    split_ifs <;> rfl
  | pauseOp => rfl
  | startOp =>
    have h1 := scheduleConsumption_length
      { s with consuming := true, queuePaused := false }
    have h2 := scheduleConsumption_runningJobs
      { s with consuming := true, queuePaused := false }
    simp only at h1 h2
    simp only [applyOp, start, noOut, List.length_nil]
    omega
  | clearOp => exact absurd rfl hop
  | destroyOp =>
    have h1 := destroy_buffer s
    have h2 := destroy_runningJobs s
    simp only [applyOp, noOut, h1, h2]
    simp

theorem applyOp_filterMap (s : PCState) (op : Op) (hop : op ≠ Op.clearOp) :
    (applyOp s op).launched ++ (applyOp s op).state.buffer.filterMap id
      = s.buffer.filterMap id ++ (applyOp s op).producedDelta.filterMap id := by
  cases op with
  | produceOp item =>
    simp only [applyOp, produce]
    split_ifs with h
    · simp [noOut]
    · have h1 := scheduleConsumption_filterMap
        (notifyStateChange { s with buffer := s.buffer ++ [item] }).1
      simp only [notify_buffer, List.filterMap_append] at h1
      simpa using h1
  | consumeOp =>
    simp only [applyOp, consume]
    split_ifs with h
    · simp [noOut]
    · have h1 := scheduleConsumption_filterMap
        { s with consuming := true, hasConsumeFn := true }
      simp only at h1
      simp only [noOut]
      simpa using h1
  | settleOp failed =>
    simp only [applyOp, settleInvocation]
    split_ifs with h
    · simp [noOut]
    · simp [noOut]
  | rescheduleOp =>
    have h1 := scheduleConsumption_filterMap s
    simp only [applyOp, noOut]
    simpa using h1
  | setSlotAmountOp n =>
    simp [applyOp, setSlotAmount, noOut]
  | hasFreeSlotOp id =>
    simp only [applyOp, hasFreeSlot]
    split_ifs <;> simp [noOut]
  | waitForEventOp name id =>
    simp only [applyOp, waitForEvent]
    split_ifs <;> simp [noOut]
  | pauseOp => simp [applyOp, pause, noOut]
  | startOp =>
    have h1 := scheduleConsumption_filterMap
      { s with consuming := true, queuePaused := false }
    simp only at h1
    simp only [applyOp, start, noOut]
    simpa using h1
  | clearOp => exact absurd rfl hop
  | destroyOp =>
    have h1 := destroy_buffer s
    simp [applyOp, noOut, h1]

theorem applyOp_sublist (s : PCState) (op : Op) :
    List.Sublist
      ((applyOp s op).launched ++ (applyOp s op).state.buffer.filterMap id)
      (s.buffer.filterMap id ++ (applyOp s op).producedDelta.filterMap id) := by
  by_cases hop : op = Op.clearOp
  · subst hop
    simp only [applyOp, clear, noOut]
    simp
  · exact (applyOp_filterMap s op hop) ▸ List.Sublist.refl _

theorem applyOp_alternation (s : PCState) (op : Op) :
    altFrom s.previousBlocked (blockedPayloads (applyOp s op).events) = true ∧
    lastFrom s.previousBlocked (blockedPayloads (applyOp s op).events)
      = (applyOp s op).state.previousBlocked := by
  cases op with
  | produceOp item =>
    simp only [applyOp, produce]
    split_ifs with h
    · exact ⟨rfl, rfl⟩
    · have hn := notify_alternation { s with buffer := s.buffer ++ [item] }
      have hs := scheduleConsumption_alternation
        (notifyStateChange { s with buffer := s.buffer ++ [item] }).1
      simp only at hn hs
      simp only [blockedPayloads_append, altFrom_append, lastFrom_append]
      constructor
      · rw [hn.1, hn.2, Bool.true_and]
        exact hs.1
      · rw [hn.2]
        exact hs.2
  | consumeOp =>
    simp only [applyOp, consume]
    split_ifs with h
    · exact ⟨rfl, rfl⟩
    · have hs := scheduleConsumption_alternation
        { s with consuming := true, hasConsumeFn := true }
      simp only at hs
      simp only [noOut]
      exact hs
  | settleOp failed =>
    simp only [applyOp, settleInvocation]
    split_ifs with h
    · exact ⟨rfl, rfl⟩
    · have hn := notify_alternation
        (checkWaitingProducers { s with runningJobs := s.runningJobs - 1 }).1
      simp only [cwp_previousBlocked] at hn
      simp only [noOut]
      exact hn
  | rescheduleOp =>
    have hs := scheduleConsumption_alternation s
    simp only [applyOp, noOut]
    exact hs
  | setSlotAmountOp n =>
    have hn := notify_alternation { s with slotAmount := n }
    simp only at hn
    simp only [applyOp, setSlotAmount, noOut, cwp_previousBlocked]
    exact hn
  | hasFreeSlotOp id =>
    simp only [applyOp, hasFreeSlot]
    split_ifs <;> exact ⟨rfl, rfl⟩
  | waitForEventOp name id =>
    simp only [applyOp, waitForEvent]
    split_ifs <;> exact ⟨rfl, rfl⟩
  | pauseOp => exact ⟨rfl, rfl⟩
  | startOp =>
    have hs := scheduleConsumption_alternation
      { s with consuming := true, queuePaused := false }
    simp only at hs
    simp only [applyOp, start, noOut]
    exact hs
  | clearOp =>
    have hn := notify_alternation { s with buffer := [], waitingForSlot := [] }
    simp only at hn
    simp only [applyOp, clear, noOut]
    exact hn
  | destroyOp =>
    refine ⟨rfl, ?_⟩
    simp only [applyOp, noOut, blockedPayloads, lastFrom, destroy_previousBlocked]

theorem notify_snd_destroyed (s : PCState) (h : s.destroyed = true) :
    (notifyStateChange s).2 = [] := by
  rw [notify_snd]
  simp [h]

theorem applyOp_destroyed_events (s : PCState) (op : Op) (h : s.destroyed = true) :
    (applyOp s op).events = [] := by
  cases op with
  | produceOp item =>
    simp only [applyOp, produce, h]
    rfl
  | consumeOp =>
    simp only [applyOp, consume, h]
    rfl
  | settleOp failed =>
    simp only [applyOp, settleInvocation]
    split_ifs with hz
    · rfl
    · simp only [noOut]
      exact notify_snd_destroyed _ (by simpa using h)
  | rescheduleOp =>
    simp only [applyOp, scheduleConsumption, h]
    simp
  | setSlotAmountOp n =>
    simp only [applyOp, setSlotAmount, noOut]
    exact notify_snd_destroyed _ (by simpa using h)
  | hasFreeSlotOp id =>
    simp only [applyOp, hasFreeSlot, h]
    rfl
  | waitForEventOp name id =>
    simp only [applyOp, waitForEvent, h]
    rfl
  | pauseOp => rfl
  | startOp =>
    simp only [applyOp, start, noOut, scheduleConsumption]
    simp [h]
  | clearOp =>
    simp only [applyOp, clear, noOut]
    exact notify_snd_destroyed _ (by simpa using h)
  | destroyOp => rfl

theorem runOps_alternation (ops : List Op) (s : PCState) :
    altFrom s.previousBlocked (blockedPayloads (runOps s ops).events) = true ∧
    lastFrom s.previousBlocked (blockedPayloads (runOps s ops).events)
      = (runOps s ops).state.previousBlocked := by
  induction ops generalizing s with
  | nil => exact ⟨rfl, rfl⟩
  | cons op ops ih =>
    have h1 := applyOp_alternation s op
    have h2 := ih (applyOp s op).state
    simp only [runOps, blockedPayloads_append, altFrom_append, lastFrom_append]
    constructor
    · rw [h1.1, h1.2, Bool.true_and]
      exact h2.1
    · rw [h1.2]
      exact h2.2

theorem runOps_count (ops : List Op) (s : PCState) (h : Op.clearOp ∉ ops) :
    (runOps s ops).state.buffer.length + (runOps s ops).state.runningJobs
      + (runOps s ops).settled + (runOps s ops).discarded
      = s.buffer.length + s.runningJobs + (runOps s ops).producedList.length := by
  induction ops generalizing s with
  | nil => simp [runOps]
  | cons op ops ih =>
    have hop : op ≠ Op.clearOp := by
      intro hh
      exact h (hh ▸ List.mem_cons_self op ops)
    have h1 := applyOp_count s op hop
    have h2 := ih (applyOp s op).state (fun hm => h (List.mem_cons_of_mem op hm))
    simp only [runOps, List.length_append]
    omega

theorem runOps_filterMap (ops : List Op) (s : PCState) (h : Op.clearOp ∉ ops) :
    (runOps s ops).launched ++ (runOps s ops).state.buffer.filterMap id
      = s.buffer.filterMap id ++ (runOps s ops).producedList.filterMap id := by
  induction ops generalizing s with
  | nil => simp [runOps]
  | cons op ops ih =>
    have hop : op ≠ Op.clearOp := by
      intro hh
      exact h (hh ▸ List.mem_cons_self op ops)
    have h1 := applyOp_filterMap s op hop
    have h2 := ih (applyOp s op).state (fun hm => h (List.mem_cons_of_mem op hm))
    simp only [runOps, List.filterMap_append]
    rw [List.append_assoc, h2, ← List.append_assoc, h1, List.append_assoc]

theorem runOps_sublist (ops : List Op) (s : PCState) :
    List.Sublist
      ((runOps s ops).launched ++ (runOps s ops).state.buffer.filterMap id)
      (s.buffer.filterMap id ++ (runOps s ops).producedList.filterMap id) := by
  induction ops generalizing s with
  | nil => simp [runOps]
  | cons op ops ih =>
    have h1 := applyOp_sublist s op
    have h2 := ih (applyOp s op).state
    simp only [runOps, List.filterMap_append]
    rw [List.append_assoc]
    refine List.Sublist.trans (List.Sublist.append_left h2 _) ?_
    rw [← List.append_assoc, ← List.append_assoc]
    exact List.Sublist.append_right h1 _

theorem notify_head (s : PCState) (h : s.destroyed = false) :
    (notifyStateChange s).2.head?
      = some (Event.freeSlotAmountChange (getFreeSlotAmount s)) := by
  rw [notify_snd]
  simp only [h, Bool.false_eq_true, if_false]
  split_ifs <;> rfl

theorem notify_blockedPayloads (s : PCState) (h : s.destroyed = false) :
    blockedPayloads (notifyStateChange s).2
      = if isBlocked s = s.previousBlocked then [] else [isBlocked s] := by
  rw [notify_snd]
  simp only [h, Bool.false_eq_true, if_false]
  by_cases hb : isBlocked s = s.previousBlocked
  · simp [hb, blockedPayloads]
  · simp [hb, blockedPayloads]

/-- A state in which a consumer settlement frees exactly one capacity unit
while three producers sit in the waiter queue: capacity 5, four buffered
items, one in-flight invocation, waiters 10, 11, 12 (in arrival order). -/
def c2State : PCState :=
  { buffer := [some 0, some 1, some 2, some 3], slotAmount := 5, concurrency := 2,
    runningJobs := 1, consuming := true, hasConsumeFn := true, destroyed := false,
    waitingForSlot := [10, 11, 12], previousBlocked := true, eventWaiters := [],
    listeners := [], queuePaused := false }

/-- A live state with one invocation in flight, about to be destroyed. -/
def c3State : PCState :=
  { buffer := [], slotAmount := 5, concurrency := 2, runningJobs := 1,
    consuming := true, hasConsumeFn := true, destroyed := false,
    waitingForSlot := [], previousBlocked := false, eventWaiters := [],
    listeners := [], queuePaused := false }

/-- A live state with a listener registered for the `destroy` event (id 7) and
one pending event waiter (id 3 on the capacity signal). -/
def c4State : PCState :=
  { buffer := [], slotAmount := 5, concurrency := 2, runningJobs := 0,
    consuming := false, hasConsumeFn := false, destroyed := false,
    waitingForSlot := [], previousBlocked := false,
    eventWaiters := [(EvtName.freeSlotAmountChange, 3)],
    listeners := [(EvtName.destroyEvent, 7)], queuePaused := false }

/-- A destroyed state that still holds two buffered items (destroy() does not
empty the buffer), reached by producing twice and then destroying. -/
def c5State : PCState :=
  { buffer := [some 1, some 2], slotAmount := 5, concurrency := 2,
    runningJobs := 0, consuming := false, hasConsumeFn := false, destroyed := true,
    waitingForSlot := [], previousBlocked := false, eventWaiters := [],
    listeners := [], queuePaused := true }

/-- C1: for every state of the coordinator, getFreeSlotAmount() returns
max(0, capacity − (buffered + in_flight)), and isBlocked() is true if and only
if buffered + in_flight ≥ capacity. -/
theorem C1_free_slot_and_blocked (s : PCState) :
    getFreeSlotAmount s
        = max 0 ((s.slotAmount : Int)
            - ((s.buffer.length : Int) + (s.runningJobs : Int))) ∧
    (isBlocked s = true ↔ s.buffer.length + s.runningJobs ≥ s.slotAmount) := by
  constructor
  · unfold getFreeSlotAmount usedSlots
    congr 1
    push_cast
    ring
  · simp only [isBlocked, decide_eq_true_eq]
    omega

/-- C2 counterexample: in `c2State` a settlement frees exactly one capacity
unit (the free-slot count becomes 1) while three producers wait, yet all three
waiters are woken — not min(3, 1) = 1 as the claim requires. -/
theorem C2_counterexample :
    (applyOp c2State (Op.settleOp false)).woken = [10, 11, 12] ∧
    getFreeSlotAmount (applyOp c2State (Op.settleOp false)).state = 1 ∧
    c2State.waitingForSlot.length = 3 ∧
    ¬((applyOp c2State (Op.settleOp false)).woken.length
        = min c2State.waitingForSlot.length 1) := by
  decide

/-- C2 (amended): when capacity frees, the waiter queue is drained in FIFO
arrival order, but the number woken is not one per freed unit: while the
coordinator is blocked no waiter is woken, and as soon as it is unblocked ALL
waiters are woken at once (resolving a waiter does not consume capacity inside
the synchronous drain loop).  Equivalently, a settlement wakes either none or
all of the queued producers, always in arrival order. -/
theorem C2_amended_wake_all_fifo (s : PCState) :
    (checkWaitingProducers s
        = (if isBlocked s then s else { s with waitingForSlot := [] },
           if isBlocked s then [] else s.waitingForSlot)) ∧
    (∀ failed, s.runningJobs ≠ 0 →
      (applyOp s (Op.settleOp failed)).woken
        = (if isBlocked { s with runningJobs := s.runningJobs - 1 } then []
           else s.waitingForSlot)) := by
  constructor
  · exact checkWaitingProducers_eq s
  · intro failed hz
    simp only [applyOp, settleInvocation, hz, if_false, noOut]
    rw [checkWaitingProducers_eq]

/-- C2 witness: the amended statement's settle clause evaluated at `c2State`
(one unit frees, three waiters, all three woken in arrival order). -/
theorem C2_amended_witness :
    c2State.runningJobs ≠ 0 ∧
    (applyOp c2State (Op.settleOp false)).woken
      = (if isBlocked { c2State with runningJobs := c2State.runningJobs - 1 } then []
         else c2State.waitingForSlot) := by
  have h := C2_amended_wake_all_fifo c2State
  exact ⟨by decide, h.2 false (by decide)⟩

/-- C3 counterexample: `destroy()` called on `c3State` (one invocation in
flight, not yet destroyed) resolves with the in-flight count still 1, not 0:
the underlying p-queue `pause()`/`clear()` are synchronous and the method never
awaits `onIdle()`. -/
theorem C3_counterexample :
    c3State.runningJobs = 1 ∧ c3State.destroyed = false ∧
    ¬((destroy c3State).state.runningJobs = 0) := by
  decide

/-- C3 (amended): destroy() performs its teardown (sets the destroyed flag,
stops consuming, wakes all producer waiters, pauses the task queue) but does
NOT await settlement of in-flight invocations: the in-flight count when it
resolves equals the count at entry. -/
theorem C3_amended_no_settlement_wait (s : PCState) :
    (destroy s).state.runningJobs = s.runningJobs ∧
    (s.destroyed = false →
      (destroy s).state.destroyed = true ∧
      (destroy s).state.consuming = false ∧
      (destroy s).state.waitingForSlot = [] ∧
      (destroy s).slotWaitersWoken = s.waitingForSlot ∧
      (destroy s).state.queuePaused = true) := by
  refine ⟨destroy_runningJobs s, fun h => ?_⟩
  rw [destroy_state_eq s h]
  unfold destroy
  simp [h]

/-- C3 witness: the amended statement evaluated at `c3State`. -/
theorem C3_amended_witness :
    (destroy c3State).state.runningJobs = c3State.runningJobs ∧
    (destroy c3State).state.destroyed = true ∧
    (destroy c3State).state.queuePaused = true := by
  have h := C3_amended_no_settlement_wait c3State
  exact ⟨h.1, (h.2 rfl).1, (h.2 rfl).2.2.2.2⟩

/-- C4 (code bug): `destroy()` sets `this.destroyed = true` before calling
`emit('destroy', this)`, and `emit` returns early on a destroyed instance, so
the terminal event is delivered to NO listener (the repository's own test,
index.test.ts line 251, expects the listener to run).  The pending event
waiters are, as claimed, resolved with the sentinel payload.  Every state has
zero deliveries; at `c4State` the registered listener 7 receives nothing. -/
theorem C4_destroy_event_undelivered :
    (∀ s, (destroy s).destroyDeliveredTo = []) ∧
    c4State.destroyed = false ∧
    c4State.listeners = [(EvtName.destroyEvent, 7)] ∧
    (destroy c4State).destroyDeliveredTo = [] ∧
    (destroy c4State).eventWaitersResolved = [(EvtName.freeSlotAmountChange, 3)] ∧
    (destroy c4State).state.listeners = [] := by
  refine ⟨destroy_deliveries, ?_⟩
  decide

/-- C5 counterexample: on the destroyed state `c5State`, `clear()` neither
raises the destroyed-state error nor leaves the state unchanged — it empties
the buffer. -/
theorem C5_counterexample :
    c5State.destroyed = true ∧
    (applyOp c5State Op.clearOp).threw = false ∧
    (applyOp c5State Op.clearOp).state.buffer = [] ∧
    ¬(c5State.buffer = []) := by
  decide

/-- C5 (amended): after destroy(), produce, consume, hasFreeSlot and
waitForEvent fail immediately with the destroyed-state error and leave the
state unchanged, but pause, start, clear and setSlotAmount perform no
destroyed-state check: they do not raise, and clear still empties the
buffer. -/
theorem C5_amended_destroyed_guards (s : PCState) (h : s.destroyed = true) :
    (∀ item, (applyOp s (Op.produceOp item)).threw = true ∧
      (applyOp s (Op.produceOp item)).state = s) ∧
    ((applyOp s Op.consumeOp).threw = true ∧ (applyOp s Op.consumeOp).state = s) ∧
    (∀ id, (applyOp s (Op.hasFreeSlotOp id)).threw = true ∧
      (applyOp s (Op.hasFreeSlotOp id)).state = s) ∧
    (∀ name id, (applyOp s (Op.waitForEventOp name id)).threw = true ∧
      (applyOp s (Op.waitForEventOp name id)).state = s) ∧
    (applyOp s Op.pauseOp).threw = false ∧
    (applyOp s Op.startOp).threw = false ∧
    (applyOp s Op.clearOp).threw = false ∧
    (∀ n, (applyOp s (Op.setSlotAmountOp n)).threw = false) ∧
    (applyOp s Op.clearOp).state.buffer = [] := by
  refine ⟨?_, ?_, ?_, ?_, rfl, ?_, ?_, ?_, ?_⟩
  · intro item
    simp [applyOp, produce, h, noOut]
  · simp [applyOp, consume, h, noOut]
  · intro id
    simp [applyOp, hasFreeSlot, h, noOut]
  · intro name id
    simp [applyOp, waitForEvent, h, noOut]
  · simp [applyOp, start, noOut]
  · simp [applyOp, clear, noOut]
  · intro n
    simp [applyOp, setSlotAmount, noOut]
  · simp [applyOp, clear, noOut]

/-- C5 witness: the amended statement evaluated at `c5State`. -/
theorem C5_amended_witness :
    c5State.destroyed = true ∧
    (applyOp c5State (Op.produceOp (some 9))).threw = true ∧
    (applyOp c5State Op.clearOp).threw = false := by
  have h := C5_amended_destroyed_guards c5State rfl
  exact ⟨rfl, (h.1 (some 9)).1, h.2.2.2.2.2.2.1⟩

/-- A live state with one invocation in flight and one buffered item. -/
def c6State : PCState :=
  { buffer := [some 4], slotAmount := 3, concurrency := 2, runningJobs := 1,
    consuming := true, hasConsumeFn := true, destroyed := false,
    waitingForSlot := [], previousBlocked := false, eventWaiters := [],
    listeners := [], queuePaused := false }

/-- C6: a consumer-task failure is caught at the scheduler boundary: the
settlement of a failed invocation reports the error to the logging
side-channel (`errLogged`), raises nothing to any caller, leaves the buffer
untouched (the failed item is not requeued), decrements the in-flight counter,
wakes waiting producers and broadcasts the capacity event exactly as a
successful settlement does, and the subsequent rescheduling pass behaves
identically to the success case. -/
theorem C6_consumer_failure_isolated (s : PCState) (h0 : s.destroyed = false)
    (h1 : 0 < s.runningJobs) :
    (applyOp s (Op.settleOp true)).state = (applyOp s (Op.settleOp false)).state ∧
    (applyOp s (Op.settleOp true)).events = (applyOp s (Op.settleOp false)).events ∧
    (applyOp s (Op.settleOp true)).woken = (applyOp s (Op.settleOp false)).woken ∧
    (applyOp s (Op.settleOp true)).threw = false ∧
    (applyOp s (Op.settleOp true)).errLogged = true ∧
    (applyOp s (Op.settleOp false)).errLogged = false ∧
    (applyOp s (Op.settleOp true)).state.runningJobs = s.runningJobs - 1 ∧
    (applyOp s (Op.settleOp true)).state.buffer = s.buffer ∧
    (applyOp s (Op.settleOp true)).launched = [] ∧
    (applyOp s (Op.settleOp true)).woken
      = (checkWaitingProducers { s with runningJobs := s.runningJobs - 1 }).2 ∧
    countFreeSlotEvents (applyOp s (Op.settleOp true)).events = 1 ∧
    applyOp (applyOp s (Op.settleOp true)).state Op.rescheduleOp
      = applyOp (applyOp s (Op.settleOp false)).state Op.rescheduleOp := by
  have hz : ¬(s.runningJobs = 0) := Nat.pos_iff_ne_zero.mp h1
  simp only [applyOp, settleInvocation, if_neg hz, noOut]
  refine ⟨trivial, trivial, trivial, trivial, trivial, trivial, ?_, ?_, trivial,
    trivial, ?_, trivial⟩
  · simp
  · simp
  · exact notify_countFreeSlot _ (by simpa using h0)

/-- C6 witness: the theorem evaluated at `c6State`. -/
theorem C6_witness :
    c6State.destroyed = false ∧ 0 < c6State.runningJobs ∧
    (applyOp c6State (Op.settleOp true)).state
      = (applyOp c6State (Op.settleOp false)).state ∧
    (applyOp c6State (Op.settleOp true)).errLogged = true := by
  have h := C6_consumer_failure_isolated c6State rfl (by decide)
  exact ⟨rfl, by decide, h.1, h.2.2.2.2.1⟩

/-- C7 counterexample: on a fresh coordinator with capacity 1 and a registered
consumer, producing an item whose value is `undefined` first emits the
capacity event (payload 0) and the blocked flip (true), but the scheduling
pass inside the same `produce()` then removes the item silently: the buffered
count changes 1 → 0 and isBlocked() flips back to false, yet no further event
is emitted — contradicting "emitted on every mutation that changes buffered"
and "fires exactly when the boolean value of isBlocked() flips relative to the
previously emitted value". -/
theorem C7_counterexample :
    (runOps (initState 1 1) [Op.consumeOp, Op.produceOp none]).events
        = [Event.freeSlotAmountChange 0, Event.blockedStateChange true] ∧
    (runOps (initState 1 1) [Op.consumeOp, Op.produceOp none]).discarded = 1 ∧
    (runOps (initState 1 1) [Op.consumeOp, Op.produceOp none]).state.buffer = [] ∧
    isBlocked (runOps (initState 1 1) [Op.consumeOp, Op.produceOp none]).state
        = false ∧
    (runOps (initState 1 1) [Op.consumeOp, Op.produceOp none]).state.previousBlocked
        = true := by
  decide

/-- C7 (amended): while the coordinator is live, the capacity event (carrying
the current free-slot count) is emitted by every notifying mutation —
setSlotAmount, produce admission, consumer settlement, clear, and once per
scheduler launch — and the blocked event is edge-triggered against the cached
previously-emitted value (over any run from a fresh coordinator the emitted
blocked payloads strictly alternate, so a repeated value is never emitted).
The exceptions forced by the counterexample: the scheduler's silent removal of
an undefined item, and any mutation after destroy(), emit nothing (so a
buffered/in-flight change or a blocked flip there goes unannounced). -/
theorem C7_amended_signals :
    (∀ sa c ops, altFrom false
        (blockedPayloads (runOps (initState sa c) ops).events) = true) ∧
    (∀ s, s.destroyed = false →
      (notifyStateChange s).2.head?
          = some (Event.freeSlotAmountChange (getFreeSlotAmount s)) ∧
      blockedPayloads (notifyStateChange s).2
          = (if isBlocked s = s.previousBlocked then [] else [isBlocked s])) ∧
    (∀ s n, s.destroyed = false →
      (applyOp s (Op.setSlotAmountOp n)).events.head?
        = some (Event.freeSlotAmountChange
            (getFreeSlotAmount { s with slotAmount := n }))) ∧
    (∀ s item, s.destroyed = false →
      (applyOp s (Op.produceOp item)).events.head?
        = some (Event.freeSlotAmountChange
            (getFreeSlotAmount { s with buffer := s.buffer ++ [item] }))) ∧
    (∀ s failed, s.destroyed = false → s.runningJobs ≠ 0 →
      (applyOp s (Op.settleOp failed)).events.head?
        = some (Event.freeSlotAmountChange
            (getFreeSlotAmount { s with runningJobs := s.runningJobs - 1 }))) ∧
    (∀ s, s.destroyed = false →
      (applyOp s Op.clearOp).events.head?
        = some (Event.freeSlotAmountChange
            (getFreeSlotAmount { s with buffer := [] }))) ∧
    (∀ s, s.destroyed = false →
      countFreeSlotEvents (scheduleConsumption s).events
        = (scheduleConsumption s).launched.length) ∧
    (∀ s op, s.destroyed = true → (applyOp s op).events = []) := by
  refine ⟨?_, ?_, ?_, ?_, ?_, ?_, ?_, ?_⟩
  · intro sa c ops
    have h := (runOps_alternation ops (initState sa c)).1
    simpa [initState] using h
  · intro s h
    exact ⟨notify_head s h, notify_blockedPayloads s h⟩
  · intro s n h
    exact notify_head { s with slotAmount := n } h
  · intro s item h
    simp only [applyOp, produce, h, Bool.false_eq_true, if_false]
    rw [notify_snd]
    simp only [h, Bool.false_eq_true, if_false]
    split_ifs <;> rfl
  · intro s failed h hz
    simp only [applyOp, settleInvocation, if_neg hz, noOut]
    have hd : ((checkWaitingProducers
        { s with runningJobs := s.runningJobs - 1 }).1).destroyed = false := by
      simpa using h
    rw [notify_head _ hd]
    have hc := getFreeSlotAmount_congr { s with runningJobs := s.runningJobs - 1 }
      ((checkWaitingProducers { s with runningJobs := s.runningJobs - 1 }).1)
      (by simp) (by simp) (by simp)
    rw [hc]
  · intro s h
    simp only [applyOp, clear, noOut]
    have hd : ({ s with buffer := [], waitingForSlot := [] } : PCState).destroyed
        = false := h
    rw [notify_head _ hd]
    have hc := getFreeSlotAmount_congr ({ s with buffer := [] } : PCState)
      ({ s with buffer := [], waitingForSlot := [] } : PCState)
      (by simp) (by simp) (by simp)
    rw [hc]
  · intro s h
    exact scheduleConsumption_countFreeSlot s h
  · intro s op h
    exact applyOp_destroyed_events s op h

/-- A live state with one buffered item and one in-flight invocation. -/
def c7State : PCState :=
  { buffer := [some 1], slotAmount := 5, concurrency := 2, runningJobs := 1,
    consuming := true, hasConsumeFn := true, destroyed := false,
    waitingForSlot := [], previousBlocked := false, eventWaiters := [],
    listeners := [], queuePaused := false }

/-- C7 witness: the amended statement evaluated at `c7State`. -/
theorem C7_amended_witness :
    c7State.destroyed = false ∧
    c7State.runningJobs ≠ 0 ∧
    (applyOp c7State (Op.setSlotAmountOp 3)).events.head?
      = some (Event.freeSlotAmountChange
          (getFreeSlotAmount { c7State with slotAmount := 3 })) ∧
    (applyOp c7State (Op.settleOp true)).events.head?
      = some (Event.freeSlotAmountChange
          (getFreeSlotAmount { c7State with
            runningJobs := c7State.runningJobs - 1 })) := by
  have h := C7_amended_signals
  exact ⟨rfl, by decide, h.2.2.1 c7State 3 rfl, h.2.2.2.2.1 c7State true rfl (by decide)⟩

/-- C8: items begin consumption in FIFO order of production: over every run
from a fresh coordinator, the sequence of payloads handed to consumer
invocations (in launch order) is an order-preserving subsequence of the
defined items in production order, so if item a entered the buffer before item
b and both are launched, a's invocation is launched first.  (Completion order
is not constrained: settlements are separate steps.) -/
theorem C8_fifo_start_order (slotAmount concurrency : Nat) (ops : List Op) :
    List.Sublist (runOps (initState slotAmount concurrency) ops).launched
      ((runOps (initState slotAmount concurrency) ops).producedList.filterMap id) := by
  have h := runOps_sublist ops (initState slotAmount concurrency)
  have h2 : (initState slotAmount concurrency).buffer = [] := rfl
  rw [h2] at h
  simp only [List.filterMap_nil, List.nil_append] at h
  exact List.Sublist.trans (List.sublist_append_left _ _) h

/-- C9 counterexample: on a fresh coordinator with capacity 1 and a registered
consumer (no clear or destroy), producing one item whose value is `undefined`
gives produced = 1 and settled = 0, yet buffered + in-flight = 0 — the
scheduler discarded the undefined item without any settlement. -/
theorem C9_counterexample :
    Op.clearOp ∉ [Op.consumeOp, Op.produceOp (none : Item)] ∧
    Op.destroyOp ∉ [Op.consumeOp, Op.produceOp (none : Item)] ∧
    (runOps (initState 1 1) [Op.consumeOp, Op.produceOp none]).producedList.length
        = 1 ∧
    (runOps (initState 1 1) [Op.consumeOp, Op.produceOp none]).settled = 0 ∧
    (runOps (initState 1 1) [Op.consumeOp, Op.produceOp none]).state.buffer.length
        + (runOps (initState 1 1) [Op.consumeOp, Op.produceOp none]).state.runningJobs
        = 0 := by
  decide

/-- C9 (amended): for any run without clear() or destroy() from a fresh
coordinator, buffered + in-flight + settled + silently-discarded-undefined
equals the number of items produced; when no produced item is undefined the
discard term is zero and the claim holds as stated. -/
theorem C9_amended_accounting (slotAmount concurrency : Nat) (ops : List Op)
    (h1 : Op.clearOp ∉ ops) (_h2 : Op.destroyOp ∉ ops) :
    (runOps (initState slotAmount concurrency) ops).state.buffer.length
      + (runOps (initState slotAmount concurrency) ops).state.runningJobs
      + (runOps (initState slotAmount concurrency) ops).settled
      + (runOps (initState slotAmount concurrency) ops).discarded
      = (runOps (initState slotAmount concurrency) ops).producedList.length := by
  have h := runOps_count ops (initState slotAmount concurrency) h1
  simpa [initState] using h

/-- C9 witness: the amended statement on the run produce-undefined then
produce-5 (one discard, one launch). -/
theorem C9_amended_witness :
    Op.clearOp ∉ [Op.consumeOp, Op.produceOp (none : Item), Op.produceOp (some 5)] ∧
    Op.destroyOp ∉ [Op.consumeOp, Op.produceOp (none : Item), Op.produceOp (some 5)] ∧
    (runOps (initState 1 1)
        [Op.consumeOp, Op.produceOp none, Op.produceOp (some 5)]).state.buffer.length
      + (runOps (initState 1 1)
          [Op.consumeOp, Op.produceOp none, Op.produceOp (some 5)]).state.runningJobs
      + (runOps (initState 1 1)
          [Op.consumeOp, Op.produceOp none, Op.produceOp (some 5)]).settled
      + (runOps (initState 1 1)
          [Op.consumeOp, Op.produceOp none, Op.produceOp (some 5)]).discarded
      = (runOps (initState 1 1)
          [Op.consumeOp, Op.produceOp none, Op.produceOp (some 5)]).producedList.length := by
  refine ⟨by decide, by decide, ?_⟩
  exact C9_amended_accounting 1 1 _ (by decide) (by decide)

/-- A live consuming state with spare concurrency, for exercising the
scheduler on an undefined buffer head. -/
def c10State : PCState :=
  { buffer := [], slotAmount := 4, concurrency := 2, runningJobs := 0,
    consuming := true, hasConsumeFn := true, destroyed := false,
    waitingForSlot := [], previousBlocked := false, eventWaiters := [],
    listeners := [], queuePaused := false }

/-- C10: an item that is `undefined` is accepted into the buffer by produce(),
but a scheduling pass that reaches it removes it without launching a consumer
invocation: the in-flight counter is not incremented, no event is emitted and
nothing is launched for it (the pass result is identical except for the
discard counter).  Every defined item, by contrast, is passed to the consumer
task exactly once: over any run without clear(), launched occurrences plus
still-buffered occurrences equal produced occurrences, for every value. -/
theorem C10_undefined_items_discarded :
    (∀ s rest, s.runningJobs < s.concurrency →
      scheduleLoop s (none :: rest)
        = { scheduleLoop s rest with
            discarded := (scheduleLoop s rest).discarded + 1 }) ∧
    (∀ s item, s.destroyed = false → s.hasConsumeFn = false →
      (applyOp s (Op.produceOp item)).state.buffer = s.buffer ++ [item]) ∧
    (∀ sa c ops v, Op.clearOp ∉ ops →
      (runOps (initState sa c) ops).launched.count v
        + ((runOps (initState sa c) ops).state.buffer.filterMap id).count v
        = ((runOps (initState sa c) ops).producedList.filterMap id).count v) := by
  refine ⟨?_, ?_, ?_⟩
  · intro s rest h
    simp only [scheduleLoop, if_pos h]
  · intro s item h hf
    simp only [applyOp, produce, h, Bool.false_eq_true, if_false]
    simp [scheduleConsumption, hf]
  · intro sa c ops v h
    have heq := runOps_filterMap ops (initState sa c) h
    have h0 : (initState sa c).buffer = [] := rfl
    rw [h0] at heq
    simp only [List.filterMap_nil, List.nil_append] at heq
    have hc := congrArg (fun l => l.count v) heq
    simpa [List.count_append] using hc

/-- C10 witness: the theorem evaluated at concrete inputs — a pass over
buffer [undefined, 3], produce-undefined acceptance on a fresh coordinator,
and the count identity for value 5 on a produce run. -/
theorem C10_witness :
    scheduleLoop c10State [none, some 3]
        = { scheduleLoop c10State [some 3] with
            discarded := (scheduleLoop c10State [some 3]).discarded + 1 } ∧
    (applyOp (initState 2 1) (Op.produceOp none)).state.buffer
        = (initState 2 1).buffer ++ [none] ∧
    (runOps (initState 1 1) [Op.consumeOp, Op.produceOp (some 5)]).launched.count 5
        + ((runOps (initState 1 1)
            [Op.consumeOp, Op.produceOp (some 5)]).state.buffer.filterMap id).count 5
        = ((runOps (initState 1 1)
            [Op.consumeOp, Op.produceOp (some 5)]).producedList.filterMap id).count 5 := by
  have h := C10_undefined_items_discarded
  exact ⟨h.1 c10State [some 3] (by decide), h.2.1 (initState 2 1) none rfl rfl,
    h.2.2 1 1 [Op.consumeOp, Op.produceOp (some 5)] 5 (by decide)⟩

end PCQ
